import Mathlib

/-!
Verification development for the VocalSynthPro workstation core
(src/App.tsx, with the paired-playback variant in src/unnamed/part_001).

The embedding translates the decision logic of the audio tick loop
(`audioLoop`), the recording toggling (`toggleRecording`), session playback
(`playBoth`, `playSessionMidi`) and the session registry operations
(`updateSessionInstrument`, `deleteSession`) into pure Lean functions.
Times are modelled as rationals; the per-tick clock reading `Tone.now()`
becomes an explicit `now` input; React state held in refs becomes an
explicit state record threaded through the tick function.
-/

namespace VocalSynth

/-- Workstation modes, from types.ts as used throughout App.tsx. -/
inductive WorkstationMode
  | IDLE
  | LIVE
  | MONITOR
  | RECORD
deriving DecidableEq, Repr

/-- MIN_NOTE_DURATION = 0.02 s (App.tsx line 13). -/
def MIN_NOTE_DURATION : ℚ := 1/50

/-- The object held in `activeNoteStartRef`: a note that has started but not
yet ended, with its start offset relative to the recording start. -/
structure Pending where
  note : String
  start : ℚ
deriving DecidableEq, Repr

/-- A recorded note event as pushed into `recordingNotesRef`:
`{ note, time (start offset), duration }`. -/
structure RecordedNote where
  note : String
  time : ℚ
  duration : ℚ
deriving DecidableEq, Repr

/-- Synthesizer API invocations issued by the live tick path. -/
inductive SynthCall
  | triggerRelease (note : String)
  | triggerAttack (note : String)
deriving DecidableEq, Repr

/-- Abstract note-tracker transitions performed by a tick: `noteOn m` records
that the sounding state (`lastMidi` / `currentMidiNote`) becomes `m`,
`noteOff m` that `m` stops sounding.  These are exactly the state
entry/exit transitions of the tick's branches. -/
inductive TrackerEvt
  | noteOn (midi : ℕ)
  | noteOff (midi : ℕ)
deriving DecidableEq, Repr

def isNoteOn : TrackerEvt → Bool
  | TrackerEvt.noteOn _ => true
  | TrackerEvt.noteOff _ => false

/-- Chromatic pitch-class table.  Modelled from the spec: the
`midiToNoteName` function lives in src/services/pitchDetection (not in the
repository snapshot); spec section 4.2 specifies the standard chromatic
name table. -/
def noteBase (i : ℕ) : String :=
  match i with
  | 0 => "C"
  | 1 => "C#"
  | 2 => "D"
  | 3 => "D#"
  | 4 => "E"
  | 5 => "F"
  | 6 => "F#"
  | 7 => "G"
  | 8 => "G#"
  | 9 => "A"
  | 10 => "A#"
  | _ => "B"

/-- Modelled from the spec: MIDI → note name via the standard chromatic
name table plus octave number, with MIDI 60 = C4 (spec section 4.2).
The function itself is in src/services/pitchDetection, outside the
snapshot. -/
def midiToNoteName (m : ℕ) : String :=
  noteBase (m % 12) ++ toString ((m : ℤ) / 12 - 1)

/-- Strips an expected character sequence from the front of a list of
characters, returning the remainder on success. -/
def stripFront : List Char → List Char → Option (List Char)
  | [], s => some s
  | _ :: _, [] => none
  | c :: n, d :: s => if c = d then stripFront n s else none

/-- Parses a nonempty all-digit character list as a natural number. -/
def parseDigits (cs : List Char) : Option ℕ :=
  match cs with
  | [] => none
  | _ :: _ =>
      if cs.all (fun c => c.isDigit) then
        some (cs.foldl (fun acc c => acc * 10 + (c.toNat - 48)) 0)
      else
        none

/-- Parses an optionally negated decimal integer (the octave number). -/
def parseOctave (cs : List Char) : Option ℤ :=
  match cs with
  | '-' :: rest => (parseDigits rest).map (fun n => -(n : ℤ))
  | _ => (parseDigits cs).map (fun n => (n : ℤ))

/-- Modelled from the spec: note-name parsing, the inverse of name
generation (spec sections 4.2 and 8); the parser lives in
src/services/pitchDetection, outside the snapshot.  Tries each pitch-class
name as a leading literal; the remainder must parse as an octave number. -/
def nameToMidi (s : String) : Option ℤ :=
  (List.range 12).findSome? fun i =>
    match stripFront (noteBase i).data s.data with
    | some rest => (parseOctave rest).map (fun o => (o + 1) * 12 + (i : ℤ))
    | none => none

/-- Per-frame mean square of the boosted samples: `sum((s*boost)^2)/len`
(App.tsx lines 247-252).  The loop's `rms` is the square root of this
value; the tick function below takes that square root as its `rms` input
since it is irrational for general frames. -/
def meanSquare (buffer : List ℚ) (gainBoost : ℚ) : ℚ :=
  ((buffer.map fun x => (x * gainBoost) ^ 2).sum) / (buffer.length : ℚ)

/-- The mutable loop state of App.tsx read and written by `audioLoop`:
`stateRef.lastMidi` (mirroring `currentMidiNote`), the smoothed
`rmsVolume`, `activeNoteStartRef` and `recordingNotesRef`. -/
structure LoopState where
  lastMidi : Option ℕ
  rmsVolume : ℚ
  activeNoteStart : Option Pending
  recordingNotes : List RecordedNote
deriving DecidableEq, Repr

/-- Per-tick inputs of `audioLoop`: the raw per-frame RMS (square root of
`meanSquare` of the analyser buffer), the pitch detector's result (consulted
when the gate is open), the configuration flags read from `stateRef`, and
the clock reading. -/
structure TickInput where
  rms : ℚ
  detected : Option ℕ
  mode : WorkstationMode
  isRecording : Bool
  isPlayingBack : Bool
  isConfiguring : Bool
  setupStepIsVoice : Bool
  sensitivity : ℚ
  now : ℚ
  recordingStart : ℚ
deriving DecidableEq, Repr

/-- Result of one tick: the updated state, the synthesizer calls issued,
and the abstract tracker transitions performed. -/
structure TickResult where
  state : LoopState
  calls : List SynthCall
  events : List TrackerEvt
deriving DecidableEq, Repr

/-- The duplicated note-finalisation block of App.tsx (lines 273-280,
297-304, 324-331): if recording with a pending note, compute
`duration = max(0, now - recordingStart - pending.start)` and append the
note when `duration >= MIN_NOTE_DURATION`; clear the pending note. -/
def flushActiveNote (isRec : Bool) (pending : Option Pending)
    (notes : List RecordedNote) (now rstart : ℚ) :
    Option Pending × List RecordedNote :=
  match pending with
  | none => (none, notes)
  | some p =>
      if isRec then
        let duration := max 0 (now - rstart - p.start)
        if MIN_NOTE_DURATION ≤ duration then
          (none, notes ++ [⟨p.note, p.start, duration⟩])
        else
          (none, notes)
      else
        (some p, notes)

/-- One iteration of `audioLoop` (App.tsx lines 239-309).  Skips everything
while a session plays back; updates the smoothed loudness; returns early
during configuration except in the VOICE step; then, when the raw rms
exceeds `sensitivity` and the detected MIDI differs from `lastMidi`,
releases the old note (finalising its recording), attacks the new note only
when `mode = LIVE` and not recording, updates the sounding state, and opens
a new pending note while recording.  On a quiet frame with a sounding note
it releases and finalises that note.  `setCurrentMidiNote` is modelled as a
direct update of `lastMidi`. -/
def audioLoopTick (inp : TickInput) (s : LoopState) : TickResult :=
  if inp.isPlayingBack then ⟨s, [], []⟩
  else
    let s1 : LoopState := { s with rmsVolume := s.rmsVolume * (7/10) + inp.rms * (3/10) }
    if inp.isConfiguring && !inp.setupStepIsVoice then ⟨s1, [], []⟩
    else
      if inp.sensitivity < inp.rms then
        match inp.detected with
        | none => ⟨s1, [], []⟩
        | some m =>
            if s1.lastMidi = some m then ⟨s1, [], []⟩
            else
              let noteName := midiToNoteName m
              let newPending : Option Pending :=
                if inp.isRecording then some ⟨noteName, inp.now - inp.recordingStart⟩
                else s1.activeNoteStart
              match s1.lastMidi with
              | some mOld =>
                  let flushed := flushActiveNote inp.isRecording s1.activeNoteStart
                    s1.recordingNotes inp.now inp.recordingStart
                  let newPending2 : Option Pending :=
                    if inp.isRecording then some ⟨noteName, inp.now - inp.recordingStart⟩
                    else flushed.1
                  ⟨{ s1 with
                       lastMidi := some m
                       activeNoteStart := newPending2
                       recordingNotes := flushed.2 },
                   [SynthCall.triggerRelease (midiToNoteName mOld)] ++
                     (if inp.mode = WorkstationMode.LIVE ∧ inp.isRecording = false then
                        [SynthCall.triggerAttack noteName] else []),
                   [TrackerEvt.noteOff mOld, TrackerEvt.noteOn m]⟩
              | none =>
                  ⟨{ s1 with lastMidi := some m, activeNoteStart := newPending },
                   (if inp.mode = WorkstationMode.LIVE ∧ inp.isRecording = false then
                      [SynthCall.triggerAttack noteName] else []),
                   [TrackerEvt.noteOn m]⟩
      else
        match s1.lastMidi with
        | some mOld =>
            let flushed := flushActiveNote inp.isRecording s1.activeNoteStart
              s1.recordingNotes inp.now inp.recordingStart
            ⟨{ s1 with
                 lastMidi := none
                 activeNoteStart := flushed.1
                 recordingNotes := flushed.2 },
             [SynthCall.triggerRelease (midiToNoteName mOld)],
             [TrackerEvt.noteOff mOld]⟩
        | none => ⟨s1, [], []⟩

/-- A stored session (types.ts `StudioSession` as constructed in App.tsx
lines 333-339). -/
structure StudioSession where
  id : String
  timestamp : ℤ
  midiNotes : List RecordedNote
  audioUrl : String
  instrumentName : String
deriving DecidableEq, Repr

/-- The recording-related mutable state touched by `toggleRecording`. -/
structure RecState where
  isRecording : Bool
  recordingNotes : List RecordedNote
  recordingStart : ℚ
  activeNoteStart : Option Pending
deriving DecidableEq, Repr

/-- `toggleRecording`, start branch (App.tsx lines 312-317): reset the note
buffer, remember the start time, mark recording, enter RECORD mode. -/
def startRecording (now : ℚ) (r : RecState) : RecState × WorkstationMode :=
  ({ isRecording := true, recordingNotes := [], recordingStart := now,
     activeNoteStart := r.activeNoteStart }, WorkstationMode.RECORD)

/-- Result of the stop branch of `toggleRecording`. -/
structure StopResult where
  recState : RecState
  sessions : List StudioSession
  mode : WorkstationMode
  created : Option StudioSession
deriving DecidableEq, Repr

/-- `toggleRecording`, stop branch (App.tsx lines 318-345).  `audioBlob` is
the recorder's result (`none` models `stop()` yielding no handle; the
object URL stands in for the blob).  With no blob the function returns
early, leaving every piece of state unchanged.  Otherwise it finalises a
pending note (duration measured to `now`, dropped below
`MIN_NOTE_DURATION`), builds the session from a copy of the accumulated
notes, prepends it to the registry, clears the recording flag and returns
to IDLE mode. -/
def stopRecording (audioBlob : Option String) (now : ℚ) (newId : String)
    (timestamp : ℤ) (instrumentName : String) (mode : WorkstationMode)
    (r : RecState) (sessions : List StudioSession) : StopResult :=
  match audioBlob with
  | none => ⟨r, sessions, mode, none⟩
  | some url =>
      let flushed := flushActiveNote true r.activeNoteStart r.recordingNotes
        now r.recordingStart
      let newSession : StudioSession :=
        ⟨newId, timestamp, flushed.2, url, instrumentName⟩
      ⟨{ r with
           isRecording := false
           recordingNotes := flushed.2
           activeNoteStart := flushed.1 },
       newSession :: sessions, WorkstationMode.IDLE, some newSession⟩

/-- An absolutely scheduled synthesizer `triggerAttackRelease` call. -/
structure SynthSched where
  note : String
  duration : ℚ
  atTime : ℚ
deriving DecidableEq, Repr

/-- `playBoth` (src/unnamed/part_001 lines 373-380): the paired playback
path.  Picks the epoch `now = Tone.now() + 0.1`, starts the audio player at
that epoch and schedules every recorded note at `now + n.time` for its
stored duration.  Returns the audio start time and the schedule. -/
def playBoth (session : StudioSession) (toneNow : ℚ) : ℚ × List SynthSched :=
  let now := toneNow + 1/10
  (now, session.midiNotes.map fun n => ⟨n.note, n.duration, now + n.time⟩)

/-- `playSessionMidi` (App.tsx lines 348-373), reduced to its scheduling:
notes-only playback with no lead-in, scheduling each note at
`Tone.now() + n.time` with duration clamped up to `MIN_NOTE_DURATION`. -/
def playSessionMidi (session : StudioSession) (toneNow : ℚ) : List SynthSched :=
  session.midiNotes.map fun n =>
    ⟨n.note, max MIN_NOTE_DURATION n.duration, toneNow + n.time⟩

/-- `updateSessionInstrument` (App.tsx lines 414-418): replaces the
instrument name of the session whose id matches. -/
def updateSessionInstrument (sessions : List StudioSession)
    (sessionId newInstrumentName : String) : List StudioSession :=
  sessions.map fun s =>
    if s.id = sessionId then { s with instrumentName := newInstrumentName } else s

/-- `deleteSession` (App.tsx lines 407-412): removes the session with the
given id from the registry. -/
def deleteSession (sessions : List StudioSession) (sid : String) :
    List StudioSession :=
  sessions.filter fun s => s.id ≠ sid

end VocalSynth

namespace VocalSynth

lemma flushActiveNote_dur (isRec : Bool) (pending : Option Pending)
    (notes : List RecordedNote) (now rstart : ℚ)
    (h : ∀ n ∈ notes, MIN_NOTE_DURATION ≤ n.duration) :
    ∀ n ∈ (flushActiveNote isRec pending notes now rstart).2,
      MIN_NOTE_DURATION ≤ n.duration := by
  unfold flushActiveNote
  cases pending with
  | none => simpa using h
  | some p =>
      cases isRec with
      | false => simpa using h
      | true =>
          dsimp only
          intro n hn
          by_cases hd : MIN_NOTE_DURATION ≤ max 0 (now - rstart - p.start)
          · rw [if_pos hd] at hn
            rcases List.mem_append.mp hn with h1 | h1
            · exact h n h1
            · rw [List.mem_singleton] at h1
              subst h1
              exact hd
          · rw [if_neg hd] at hn
            exact h n hn

lemma meanSquare_nonneg (buffer : List ℚ) (g : ℚ) : 0 ≤ meanSquare buffer g := by
  unfold meanSquare
  apply div_nonneg
  · apply List.sum_nonneg
    intro x hx
    simp only [List.mem_map] at hx
    obtain ⟨y, _, rfl⟩ := hx
    positivity
  · positivity

lemma audioLoopTick_rmsVolume (inp : TickInput) (s : LoopState)
    (hpb : inp.isPlayingBack = false) :
    (audioLoopTick inp s).state.rmsVolume
      = s.rmsVolume * (7/10) + inp.rms * (3/10) := by
  unfold audioLoopTick
  rw [if_neg (by simp [hpb])]
  dsimp only
  split
  · rfl
  · split
    · split
      · rfl
      · split
        · rfl
        · split <;> rfl
    · split <;> rfl

lemma audioLoopTick_noteOn_gate (inp : TickInput) (s : LoopState) (m : ℕ)
    (h : TrackerEvt.noteOn m ∈ (audioLoopTick inp s).events) :
    inp.sensitivity < inp.rms := by
  by_contra hno
  unfold audioLoopTick at h
  by_cases hpb : inp.isPlayingBack = true
  · rw [if_pos hpb] at h
    simp at h
  · rw [if_neg hpb] at h
    dsimp only at h
    by_cases hcf : (inp.isConfiguring && !inp.setupStepIsVoice) = true
    · rw [if_pos hcf] at h
      simp at h
    · rw [if_neg hcf] at h
      rw [if_neg hno] at h
      split at h <;> simp at h

end VocalSynth

namespace VocalSynth

lemma audioLoopTick_same (inp : TickInput) (s : LoopState) (m : ℕ)
    (hpb : inp.isPlayingBack = false) (hcf : inp.isConfiguring = false)
    (hgate : inp.sensitivity < inp.rms) (hdet : inp.detected = some m)
    (hlm : s.lastMidi = some m) :
    audioLoopTick inp s
      = ⟨{ s with rmsVolume := s.rmsVolume * (7/10) + inp.rms * (3/10) }, [], []⟩ := by
  unfold audioLoopTick
  rw [if_neg (by simp [hpb])]
  dsimp only
  rw [if_neg (by simp [hcf])]
  rw [if_pos hgate, hdet]
  dsimp only
  rw [if_pos (by simpa using hlm)]

lemma audioLoopTick_change (inp : TickInput) (s : LoopState) (m mOld : ℕ)
    (hpb : inp.isPlayingBack = false) (hcf : inp.isConfiguring = false)
    (hgate : inp.sensitivity < inp.rms) (hdet : inp.detected = some m)
    (hlm : s.lastMidi = some mOld) (hne : mOld ≠ m) :
    (audioLoopTick inp s).events = [TrackerEvt.noteOff mOld, TrackerEvt.noteOn m]
    ∧ (audioLoopTick inp s).state.lastMidi = some m := by
  unfold audioLoopTick
  rw [if_neg (by simp [hpb])]
  dsimp only
  rw [if_neg (by simp [hcf])]
  rw [if_pos hgate, hdet]
  dsimp only
  rw [if_neg (by simp [hlm, hne])]
  rw [hlm]
  exact ⟨rfl, rfl⟩

lemma audioLoopTick_fresh (inp : TickInput) (s : LoopState) (m : ℕ)
    (hpb : inp.isPlayingBack = false) (hcf : inp.isConfiguring = false)
    (hgate : inp.sensitivity < inp.rms) (hdet : inp.detected = some m)
    (hlm : s.lastMidi = none) :
    (audioLoopTick inp s).events = [TrackerEvt.noteOn m]
    ∧ (audioLoopTick inp s).state.lastMidi = some m := by
  unfold audioLoopTick
  rw [if_neg (by simp [hpb])]
  dsimp only
  rw [if_neg (by simp [hcf])]
  rw [if_pos hgate, hdet]
  dsimp only
  rw [if_neg (by simp [hlm])]
  rw [hlm]
  exact ⟨rfl, rfl⟩

/-- C1: the note tracker is edge-triggered.  On a gate-open tick whose
detected MIDI equals the sounding MIDI, no tracker event and no synthesizer
call is issued and the sounding state is unchanged; on a gate-open tick
whose detected MIDI `m` differs from the sounding MIDI `mOld`, a note-off
for `mOld` is emitted immediately followed by a note-on for `m` and the
sounding state becomes `m`; and two consecutive gate-open ticks detecting
the same MIDI `m`, started from a state not already sounding `m`, produce
exactly one note-on in total. -/
theorem noteTracker_edge_triggered
    (inp inp2 : TickInput) (s : LoopState) (m : ℕ)
    (hpb : inp.isPlayingBack = false) (hcf : inp.isConfiguring = false)
    (hgate : inp.sensitivity < inp.rms) (hdet : inp.detected = some m)
    (hpb2 : inp2.isPlayingBack = false) (hcf2 : inp2.isConfiguring = false)
    (hgate2 : inp2.sensitivity < inp2.rms) (hdet2 : inp2.detected = some m) :
    (s.lastMidi = some m →
        (audioLoopTick inp s).events = []
        ∧ (audioLoopTick inp s).calls = []
        ∧ (audioLoopTick inp s).state.lastMidi = some m)
    ∧ (∀ mOld, s.lastMidi = some mOld → mOld ≠ m →
        (audioLoopTick inp s).events = [TrackerEvt.noteOff mOld, TrackerEvt.noteOn m]
        ∧ (audioLoopTick inp s).state.lastMidi = some m)
    ∧ (s.lastMidi ≠ some m →
        ((audioLoopTick inp s).events
          ++ (audioLoopTick inp2 (audioLoopTick inp s).state).events).countP isNoteOn
          = 1) := by
  refine ⟨?_, ?_, ?_⟩
  · intro hlm
    rw [audioLoopTick_same inp s m hpb hcf hgate hdet hlm]
    exact ⟨rfl, rfl, by simpa using hlm⟩
  · intro mOld hlm hne
    exact audioLoopTick_change inp s m mOld hpb hcf hgate hdet hlm hne
  · intro hlm
    cases hsl : s.lastMidi with
    | none =>
        have h1 := audioLoopTick_fresh inp s m hpb hcf hgate hdet hsl
        have h2 := audioLoopTick_same inp2 (audioLoopTick inp s).state m hpb2 hcf2
          hgate2 hdet2 h1.2
        rw [h1.1, h2]
        simp [isNoteOn, List.countP_cons]
    | some mOld =>
        have hne : mOld ≠ m := by
          intro hEq
          exact hlm (hEq ▸ hsl)
        have h1 := audioLoopTick_change inp s m mOld hpb hcf hgate hdet hsl hne
        have h2 := audioLoopTick_same inp2 (audioLoopTick inp s).state m hpb2 hcf2
          hgate2 hdet2 h1.2
        rw [h1.1, h2]
        simp [isNoteOn, List.countP_cons]

def sC1 : LoopState := ⟨some 60, 0, none, []⟩

def inpC1 : TickInput :=
  ⟨1/50, some 60, WorkstationMode.LIVE, false, false, false, false, 3/200, 0, 0⟩

/-- Witness for C1 at a concrete tick: detected MIDI 60 while 60 already
sounds produces no events and no calls. -/
theorem noteTracker_edge_triggered_witness :
    (audioLoopTick inpC1 sC1).events = []
    ∧ (audioLoopTick inpC1 sC1).calls = []
    ∧ (audioLoopTick inpC1 sC1).state.lastMidi = some 60 :=
  (noteTracker_edge_triggered inpC1 inpC1 sC1 60 rfl rfl (by norm_num [inpC1]) rfl
    rfl rfl (by norm_num [inpC1]) rfl).1 rfl

end VocalSynth

namespace VocalSynth

/-- C2: every note stored in a recording, and hence in a finalized session,
has duration at least MIN_NOTE_DURATION (0.02 s).  The tick preserves the
invariant over the accumulated notes; a finalized session's note list
satisfies it whenever the accumulated notes did; a fresh recording starts
with no notes; and a candidate whose clamped duration is below the floor is
discarded by the finalisation block. -/
theorem recorded_notes_min_duration :
    (∀ (inp : TickInput) (s : LoopState),
       (∀ n ∈ s.recordingNotes, MIN_NOTE_DURATION ≤ n.duration) →
       ∀ n ∈ (audioLoopTick inp s).state.recordingNotes,
         MIN_NOTE_DURATION ≤ n.duration)
    ∧ (∀ (blob : Option String) (now : ℚ) (newId : String) (ts : ℤ)
         (instr : String) (mode : WorkstationMode) (r : RecState)
         (sessions : List StudioSession) (sess : StudioSession),
       (∀ n ∈ r.recordingNotes, MIN_NOTE_DURATION ≤ n.duration) →
       (stopRecording blob now newId ts instr mode r sessions).created = some sess →
       ∀ n ∈ sess.midiNotes, MIN_NOTE_DURATION ≤ n.duration)
    ∧ (∀ (now : ℚ) (r : RecState), ((startRecording now r).1).recordingNotes = [])
    ∧ (∀ (isRec : Bool) (p : Pending) (notes : List RecordedNote) (now rstart : ℚ),
       max 0 (now - rstart - p.start) < MIN_NOTE_DURATION →
       (flushActiveNote isRec (some p) notes now rstart).2 = notes) := by
  refine ⟨?_, ?_, ?_, ?_⟩
  · intro inp s h n hn
    unfold audioLoopTick at hn
    split at hn
    · exact h n hn
    · dsimp only at hn
      split at hn
      · exact h n hn
      · split at hn
        · split at hn
          · exact h n hn
          · split at hn
            · exact h n hn
            · split at hn
              · exact flushActiveNote_dur inp.isRecording s.activeNoteStart
                  s.recordingNotes inp.now inp.recordingStart h n hn
              · exact h n hn
        · split at hn
          · exact flushActiveNote_dur inp.isRecording s.activeNoteStart
              s.recordingNotes inp.now inp.recordingStart h n hn
          · exact h n hn
  · intro blob now newId ts instr mode r sessions sess h hc n hn
    cases blob with
    | none => simp [stopRecording] at hc
    | some url =>
        have hsess : sess
            = ⟨newId, ts,
               (flushActiveNote true r.activeNoteStart r.recordingNotes
                 now r.recordingStart).2, url, instr⟩ := by
          simpa [stopRecording] using hc.symm
        rw [hsess] at hn
        exact flushActiveNote_dur true r.activeNoteStart r.recordingNotes
          now r.recordingStart h n hn
  · intro now r
    rfl
  · intro isRec p notes now rstart hlt
    unfold flushActiveNote
    cases isRec with
    | false => rfl
    | true =>
        dsimp only
        rw [if_neg (not_le.mpr hlt)]
        rfl

def rC2 : RecState := ⟨true, [], 0, some ⟨"A4", 0⟩⟩

def urlC2 : String := "blob-c2"

def idC2 : String := "sess-c2"

def instrC2 : String := "Piano"

def sessC2 : StudioSession := ⟨idC2, 0, [⟨"A4", 0, 1⟩], urlC2, instrC2⟩

def noteC2 : RecordedNote := ⟨"A4", 0, 1⟩

/-- Witness for C2 at a concrete stop: the single finalized note of a
concrete recording satisfies the duration floor. -/
theorem recorded_notes_min_duration_witness :
    MIN_NOTE_DURATION ≤ noteC2.duration :=
  recorded_notes_min_duration.2.1 (some urlC2) 1 idC2 0 instrC2
    WorkstationMode.RECORD rC2 [] sessC2 (by simp [rC2])
    (by simp [stopRecording, flushActiveNote, rC2, sessC2, idC2, urlC2, instrC2]
        norm_num [MIN_NOTE_DURATION])
    noteC2 (by simp [sessC2, noteC2])

end VocalSynth

namespace VocalSynth

/-- C3: stopping a recording while a note is still open finalizes it with
the stop time as its end.  With a pending note, an empty note buffer and a
resulting duration of at least the floor, the created session contains
exactly that one note, with the pending start offset as its start time and
`now - recordingStart - startOffset` as its duration. -/
theorem flush_on_stop (url newId : String) (ts : ℤ) (instr : String)
    (mode : WorkstationMode) (now : ℚ) (r : RecState)
    (sessions : List StudioSession) (p : Pending)
    (hpend : r.activeNoteStart = some p)
    (hnotes : r.recordingNotes = [])
    (hdur : MIN_NOTE_DURATION ≤ now - r.recordingStart - p.start) :
    (stopRecording (some url) now newId ts instr mode r sessions).created
      = some ⟨newId, ts, [⟨p.note, p.start, now - r.recordingStart - p.start⟩],
              url, instr⟩ := by
  have h0 : (0 : ℚ) ≤ now - r.recordingStart - p.start :=
    le_trans (by norm_num [MIN_NOTE_DURATION]) hdur
  have hmax : max 0 (now - r.recordingStart - p.start)
      = now - r.recordingStart - p.start := max_eq_right h0
  simp [stopRecording, flushActiveNote, hpend, hnotes, hmax, hdur]

def rC3 : RecState := ⟨true, [], 0, some ⟨"A4", 1⟩⟩

def urlC3 : String := "blob-c3"

def idC3 : String := "sess-c3"

def instrC3 : String := "Piano"

def noteA4 : String := "A4"

/-- Witness for C3: a pending note at offset 1.0 s, stop at 1.5 s with
recording epoch 0, yields exactly one note with start 1.0 and duration
0.5. -/
theorem flush_on_stop_witness :
    (stopRecording (some urlC3) (3/2) idC3 0 instrC3 WorkstationMode.RECORD
        rC3 []).created
      = some ⟨idC3, 0, [⟨noteA4, 1, 1/2⟩], urlC3, instrC3⟩ := by
  have h := flush_on_stop urlC3 idC3 0 instrC3 WorkstationMode.RECORD (3/2) rC3 []
    ⟨noteA4, 1⟩ (by simp [rC3, noteA4]) rfl
    (by norm_num [rC3, MIN_NOTE_DURATION])
  rw [h]
  norm_num [rC3]

def recC4 : RecState := ⟨true, [⟨"A4", 0, 1⟩], 0, none⟩

def idC4 : String := "sess-c4"

def instrC4 : String := "Piano"

/-- C4 (code divergence): when the recorder's `stop()` yields no audio
handle, `toggleRecording` returns early.  No session is created and none is
exposed, but the accumulated notes are retained and, contrary to the claim
and to spec section 7, the recording state is left active
(`isRecording` remains true). -/
theorem stop_without_blob_keeps_recording_active :
    (stopRecording none 2 idC4 0 instrC4 WorkstationMode.RECORD recC4 []).recState.isRecording
        = true
    ∧ (stopRecording none 2 idC4 0 instrC4 WorkstationMode.RECORD recC4 []).recState.recordingNotes
        = recC4.recordingNotes
    ∧ (stopRecording none 2 idC4 0 instrC4 WorkstationMode.RECORD recC4 []).created = none
    ∧ (stopRecording none 2 idC4 0 instrC4 WorkstationMode.RECORD recC4 []).sessions = []
    ∧ (stopRecording none 2 idC4 0 instrC4 WorkstationMode.RECORD recC4 []).mode
        = WorkstationMode.RECORD :=
  ⟨rfl, rfl, rfl, rfl, rfl⟩

end VocalSynth

namespace VocalSynth

def inpC5 : TickInput :=
  ⟨1/50, some 60, WorkstationMode.LIVE, false, false, false, false, 3/200, 0, 0⟩

def sC5 : LoopState := ⟨none, 0, none, []⟩

def bufC5 : List ℚ := [1/50]

lemma meanSquare_bufC5 : meanSquare bufC5 1 = 1/2500 := by
  norm_num [meanSquare, bufC5]

lemma rms_bufC5 : ((1/50 : ℚ) : ℝ) = Real.sqrt ((meanSquare bufC5 1 : ℚ) : ℝ) := by
  rw [meanSquare_bufC5]
  have h2 : (((1/2500 : ℚ)) : ℝ) = ((1/50 : ℝ)) ^ 2 := by norm_num
  rw [h2, Real.sqrt_sq (by norm_num : (0 : ℝ) ≤ 1/50)]
  norm_num

/-- C5 counterexample: on a concrete tick whose raw per-frame RMS (the
square root of the frame's mean square) exceeds `sensitivity` while the
updated smoothed loudness stays below `sensitivity`, the loop still emits a
note-on.  So the activity gate compares the raw RMS, not the smoothed
loudness, against `sensitivity`, contradicting the claim. -/
theorem gate_not_on_smoothed_loudness :
    (audioLoopTick inpC5 sC5).events = [TrackerEvt.noteOn 60]
    ∧ (audioLoopTick inpC5 sC5).state.rmsVolume < inpC5.sensitivity
    ∧ sC5.rmsVolume < inpC5.sensitivity
    ∧ ((inpC5.rms : ℚ) : ℝ) = Real.sqrt ((meanSquare bufC5 1 : ℚ) : ℝ) := by
  have hfresh := audioLoopTick_fresh inpC5 sC5 60 rfl rfl (by norm_num [inpC5]) rfl rfl
  have hrv := audioLoopTick_rmsVolume inpC5 sC5 rfl
  refine ⟨hfresh.1, ?_, by norm_num [sC5, inpC5], ?_⟩
  · rw [hrv]
    norm_num [sC5, inpC5]
  · show ((inpC5.rms : ℚ) : ℝ) = _
    have : inpC5.rms = 1/50 := rfl
    rw [this]
    exact rms_bufC5

/-- C5 (amended): the per-frame RMS is the square root of
`mean((sample * gainBoost)^2)`, the smoothed loudness is updated as
`new = 0.3 * rms + 0.7 * previous`, but the activity gate compares the raw
per-frame RMS — not the smoothed loudness — against `sensitivity`:
a note-on can only be emitted when `rms > sensitivity`, equivalently when
the frame's mean square exceeds `sensitivity^2`. -/
theorem loudness_smoothing_and_raw_gate (inp : TickInput) (s : LoopState)
    (buffer : List ℚ) (boost : ℚ)
    (hpb : inp.isPlayingBack = false)
    (hrms : ((inp.rms : ℚ) : ℝ) = Real.sqrt ((meanSquare buffer boost : ℚ) : ℝ))
    (hrnn : 0 ≤ inp.rms) (hsnn : 0 ≤ inp.sensitivity) :
    (audioLoopTick inp s).state.rmsVolume
        = (3/10) * inp.rms + (7/10) * s.rmsVolume
    ∧ (inp.sensitivity < inp.rms ↔ inp.sensitivity ^ 2 < meanSquare buffer boost)
    ∧ (∀ m : ℕ, TrackerEvt.noteOn m ∈ (audioLoopTick inp s).events →
        inp.sensitivity ^ 2 < meanSquare buffer boost) := by
  have hms : (0 : ℚ) ≤ meanSquare buffer boost := meanSquare_nonneg buffer boost
  have hsq : ((inp.rms : ℚ) : ℝ) ^ 2 = ((meanSquare buffer boost : ℚ) : ℝ) := by
    rw [hrms, Real.sq_sqrt (by exact_mod_cast hms)]
  have hiff : inp.sensitivity < inp.rms ↔ inp.sensitivity ^ 2 < meanSquare buffer boost := by
    constructor
    · intro h
      have h' : ((inp.sensitivity : ℚ) : ℝ) < ((inp.rms : ℚ) : ℝ) := by exact_mod_cast h
      have hs' : (0 : ℝ) ≤ ((inp.sensitivity : ℚ) : ℝ) := by exact_mod_cast hsnn
      have hlt : ((inp.sensitivity : ℚ) : ℝ) ^ 2 < ((inp.rms : ℚ) : ℝ) ^ 2 := by
        nlinarith
      rw [hsq] at hlt
      exact_mod_cast hlt
    · intro h
      have h' : ((inp.sensitivity : ℚ) : ℝ) ^ 2 < ((meanSquare buffer boost : ℚ) : ℝ) := by
        exact_mod_cast h
      rw [← hsq] at h'
      have hr' : (0 : ℝ) ≤ ((inp.rms : ℚ) : ℝ) := by exact_mod_cast hrnn
      have hs' : (0 : ℝ) ≤ ((inp.sensitivity : ℚ) : ℝ) := by exact_mod_cast hsnn
      have : ((inp.sensitivity : ℚ) : ℝ) < ((inp.rms : ℚ) : ℝ) := by nlinarith
      exact_mod_cast this
  refine ⟨?_, hiff, ?_⟩
  · rw [audioLoopTick_rmsVolume inp s hpb]
    ring
  · intro m hm
    exact hiff.mp (audioLoopTick_noteOn_gate inp s m hm)

/-- Witness for the amended C5 at a concrete tick: the smoothing update,
the gate equivalence and the gate bound all hold at the concrete
counterexample frame. -/
theorem loudness_smoothing_and_raw_gate_witness :
    (audioLoopTick inpC5 sC5).state.rmsVolume
        = (3/10) * inpC5.rms + (7/10) * sC5.rmsVolume
    ∧ (inpC5.sensitivity < inpC5.rms ↔ inpC5.sensitivity ^ 2 < meanSquare bufC5 1)
    ∧ inpC5.sensitivity ^ 2 < meanSquare bufC5 1 := by
  have h := loudness_smoothing_and_raw_gate inpC5 sC5 bufC5 1 rfl
    (by rw [show inpC5.rms = 1/50 from rfl]; exact rms_bufC5)
    (by norm_num [inpC5]) (by norm_num [inpC5])
  refine ⟨h.1, h.2.1, h.2.1.mp (by norm_num [inpC5])⟩

/-- C6: the live tracking path triggers no synthesizer attack in any mode
other than LIVE: for every tick with `mode ≠ LIVE`, `triggerAttack` is not
among the issued synthesizer calls. -/
theorem no_live_attack_outside_live_mode (inp : TickInput) (s : LoopState)
    (h : inp.mode ≠ WorkstationMode.LIVE) :
    ∀ noteName, SynthCall.triggerAttack noteName ∉ (audioLoopTick inp s).calls := by
  intro noteName hmem
  unfold audioLoopTick at hmem
  by_cases hpb : inp.isPlayingBack = true
  · rw [if_pos hpb] at hmem
    simp at hmem
  · rw [if_neg hpb] at hmem
    dsimp only at hmem
    by_cases hcf : (inp.isConfiguring && !inp.setupStepIsVoice) = true
    · rw [if_pos hcf] at hmem
      simp at hmem
    · rw [if_neg hcf] at hmem
      by_cases hg : inp.sensitivity < inp.rms
      · rw [if_pos hg] at hmem
        cases hdet : inp.detected with
        | none =>
            rw [hdet] at hmem
            simp at hmem
        | some m =>
            rw [hdet] at hmem
            dsimp only at hmem
            by_cases hsame : s.lastMidi = some m
            · rw [if_pos hsame] at hmem
              simp at hmem
            · rw [if_neg hsame] at hmem
              cases hsl : s.lastMidi with
              | some mOld =>
                  rw [hsl] at hmem
                  simp at hmem
                  exact h hmem.1.1
              | none =>
                  rw [hsl] at hmem
                  simp at hmem
                  exact h hmem.1.1
      · rw [if_neg hg] at hmem
        split at hmem <;> simp at hmem

def inpC6 : TickInput :=
  ⟨1/50, some 60, WorkstationMode.MONITOR, false, false, false, false, 3/200, 0, 0⟩

def sC6 : LoopState := ⟨some 57, 0, none, []⟩

/-- Witness for C6 at a concrete tick in MONITOR mode. -/
theorem no_live_attack_outside_live_mode_witness :
    SynthCall.triggerAttack (midiToNoteName 60) ∉ (audioLoopTick inpC6 sC6).calls :=
  no_live_attack_outside_live_mode inpC6 sC6 (by simp [inpC6]) (midiToNoteName 60)

end VocalSynth

namespace VocalSynth

/-- C7: paired playback schedules every note with the fixed 0.1 s lead-in.
`playBoth` starts the audio at epoch `T = now + 0.1` and schedules every
recorded note at `T + n.time` with its stored duration. -/
theorem playback_lead_in (session : StudioSession) (toneNow : ℚ) :
    (playBoth session toneNow).1 = toneNow + 1/10
    ∧ ∀ n ∈ session.midiNotes,
        (⟨n.note, n.duration, toneNow + 1/10 + n.time⟩ : SynthSched)
          ∈ (playBoth session toneNow).2 := by
  constructor
  · rfl
  · intro n hn
    exact List.mem_map.mpr ⟨n, hn, rfl⟩

def noteNmC7 : String := "E4"

def sessC7 : StudioSession := ⟨"s7", 0, [⟨noteNmC7, 3/10, 2/5⟩], "u7", "Piano"⟩

/-- Witness for C7: a session with one note at startTime 0.3 and duration
0.4, played at now = 10.0, starts its audio at 10.1 and schedules the
synthesizer call at absolute time 10.4 with duration 0.4. -/
theorem playback_lead_in_witness :
    (playBoth sessC7 10).1 = 101/10
    ∧ (⟨noteNmC7, 2/5, 52/5⟩ : SynthSched) ∈ (playBoth sessC7 10).2 := by
  have h := playback_lead_in sessC7 10
  constructor
  · rw [h.1]
    norm_num
  · have h2 := h.2 ⟨noteNmC7, 3/10, 2/5⟩ (by simp [sessC7])
    dsimp only at h2
    have he : (10 : ℚ) + 1/10 + 3/10 = 52/5 := by norm_num
    rw [he] at h2
    exact h2

def sessC8 : StudioSession := ⟨"a8", 0, [], "u8", "Piano"⟩

def idC8 : String := "a8"

def newNameC8 : String := "Violin"

/-- C8 counterexample: `updateSessionInstrument` changes the stored
session's instrument label after creation, so sessions are not immutable in
every field until deletion. -/
theorem session_label_mutated :
    (updateSessionInstrument [sessC8] idC8 newNameC8).map (fun s => s.instrumentName)
      = [newNameC8]
    ∧ sessC8.instrumentName ≠ newNameC8
    ∧ updateSessionInstrument [sessC8] idC8 newNameC8 ≠ [sessC8] := by
  refine ⟨?_, ?_, ?_⟩ <;> decide

/-- C8 (amended): after creation, a session's id, timestamp, note list and
audio handle are never changed by the registry operations; the only field
an operation may replace is the instrument label, and only
`updateSessionInstrument` does so, for the session whose id matches. -/
theorem session_fields_stable_except_label (sessions : List StudioSession)
    (sid name : String) (t : StudioSession)
    (ht : t ∈ updateSessionInstrument sessions sid name) :
    ∃ s ∈ sessions, t.id = s.id ∧ t.timestamp = s.timestamp
      ∧ t.midiNotes = s.midiNotes ∧ t.audioUrl = s.audioUrl
      ∧ (t.instrumentName = s.instrumentName
          ∨ (s.id = sid ∧ t.instrumentName = name)) := by
  unfold updateSessionInstrument at ht
  obtain ⟨s, hs, heq⟩ := List.mem_map.mp ht
  subst heq
  refine ⟨s, hs, ?_⟩
  by_cases hid : s.id = sid
  · rw [if_pos hid]
    exact ⟨rfl, rfl, rfl, rfl, Or.inr ⟨hid, rfl⟩⟩
  · rw [if_neg hid]
    exact ⟨rfl, rfl, rfl, rfl, Or.inl rfl⟩

def sessC8b : StudioSession := ⟨"b8", 1, [], "v8", "Organ"⟩

def nameC8b : String := "Flute"

def tC8 : StudioSession := ⟨"b8", 1, [], "v8", "Flute"⟩

/-- Witness for the amended C8 at a concrete registry update. -/
theorem session_fields_stable_except_label_witness :
    ∃ s ∈ [sessC8b], tC8.id = s.id ∧ tC8.timestamp = s.timestamp
      ∧ tC8.midiNotes = s.midiNotes ∧ tC8.audioUrl = s.audioUrl
      ∧ (tC8.instrumentName = s.instrumentName
          ∨ (s.id = sessC8b.id ∧ tC8.instrumentName = nameC8b)) :=
  session_fields_stable_except_label [sessC8b] sessC8b.id nameC8b tC8 (by decide)

/-- C9: note-name parsing is the exact inverse of note-name generation over
the full MIDI range 0-127 (modelled from the spec; the implementation lives
in src/services/pitchDetection, outside the snapshot). -/
theorem noteName_roundTrip :
    ∀ m : ℕ, m < 128 → nameToMidi (midiToNoteName m) = some (m : ℤ) := by
  decide

/-- Witness for C9 at MIDI 69 (A4). -/
theorem noteName_roundTrip_witness :
    nameToMidi (midiToNoteName 69) = some (69 : ℤ) :=
  noteName_roundTrip 69 (by norm_num)

lemma updateSessionInstrument_noMatch (prev : List StudioSession)
    (sid name : String) (h : ∀ s ∈ prev, s.id ≠ sid) :
    updateSessionInstrument prev sid name = prev := by
  induction prev with
  | nil => rfl
  | cons a l ih =>
      have ha : a.id ≠ sid := h a (List.mem_cons_self a l)
      have hl : ∀ s ∈ l, s.id ≠ sid := fun s hs => h s (List.mem_cons_of_mem a hs)
      unfold updateSessionInstrument
      rw [List.map_cons, if_neg ha]
      have htail := ih hl
      unfold updateSessionInstrument at htail
      rw [htail]

/-- C10: `updateSessionInstrument` changes only the instrument name of the
sessions whose id matches, preserves every other field of every session,
keeps the registry's length, and leaves the registry unchanged when no
session has the given id. -/
theorem updateSessionInstrument_frame (prev : List StudioSession)
    (sid name : String) :
    ((∀ s ∈ prev, s.id ≠ sid) → updateSessionInstrument prev sid name = prev)
    ∧ (updateSessionInstrument prev sid name).length = prev.length
    ∧ ∀ (i : ℕ) (h : i < prev.length)
        (h2 : i < (updateSessionInstrument prev sid name).length),
        ((updateSessionInstrument prev sid name).get ⟨i, h2⟩).id
            = (prev.get ⟨i, h⟩).id
        ∧ ((updateSessionInstrument prev sid name).get ⟨i, h2⟩).timestamp
            = (prev.get ⟨i, h⟩).timestamp
        ∧ ((updateSessionInstrument prev sid name).get ⟨i, h2⟩).midiNotes
            = (prev.get ⟨i, h⟩).midiNotes
        ∧ ((updateSessionInstrument prev sid name).get ⟨i, h2⟩).audioUrl
            = (prev.get ⟨i, h⟩).audioUrl
        ∧ ((updateSessionInstrument prev sid name).get ⟨i, h2⟩).instrumentName
            = (if (prev.get ⟨i, h⟩).id = sid then name
               else (prev.get ⟨i, h⟩).instrumentName) := by
  refine ⟨updateSessionInstrument_noMatch prev sid name, ?_, ?_⟩
  · simp [updateSessionInstrument]
  · intro i h h2
    have hg : (updateSessionInstrument prev sid name).get ⟨i, h2⟩
        = (if (prev.get ⟨i, h⟩).id = sid
            then { prev.get ⟨i, h⟩ with instrumentName := name }
            else prev.get ⟨i, h⟩) := by
      simp [updateSessionInstrument, List.get_eq_getElem, List.getElem_map]
    rw [hg]
    by_cases hid : (prev.get ⟨i, h⟩).id = sid
    · rw [if_pos hid, if_pos hid]
      exact ⟨rfl, rfl, rfl, rfl, rfl⟩
    · rw [if_neg hid, if_neg hid]
      exact ⟨rfl, rfl, rfl, rfl, rfl⟩

def prevC10 : List StudioSession :=
  [⟨"a10", 0, [], "u10", "Piano"⟩, ⟨"b10", 1, [], "v10", "Organ"⟩]

def absentIdC10 : String := "z10"

def freshNameC10 : String := "Violin"

/-- Witness for C10: with no matching id, the registry is unchanged. -/
theorem updateSessionInstrument_frame_witness :
    updateSessionInstrument prevC10 absentIdC10 freshNameC10 = prevC10 :=
  (updateSessionInstrument_frame prevC10 absentIdC10 freshNameC10).1 (by decide)

end VocalSynth
